import Mathlib

/-
Verification of the profile selection and sync orchestration logic of
yawsso (src/yawsso/cli.py, function `main`, lines 107-167).

The embedding models the Python string primitives used by `main` over
character lists (so that everything kernel-evaluates), then translates the
selection loop (cli.py lines 135-156), the named-profile universe
construction (line 130), the per-profile sync loop (lines 159-167) and the
special-case shortcuts (lines 116-127) into Lean definitions.  External
collaborators (the credential updater `core.update_profile`, the export
sink `utils.get_export_vars`) are parameters / observable traces.
-/

namespace Yawsso

/-- Model of Python's `sep in s` for a single-character separator `c`:
true when `c` occurs in `s` (cli.py line 138 uses `":" in np`). -/
def pyContains (s : String) (c : Char) : Bool := s.toList.contains c

/-- Auxiliary for `pySplit`: walks the character list, cutting at every
occurrence of the separator; `acc` holds the current (reversed) chunk. -/
def pySplitAux (c : Char) : List Char → List Char → List String
  | [], acc => [String.mk acc.reverse]
  | d :: rest, acc =>
    if d == c then String.mk acc.reverse :: pySplitAux c rest []
    else pySplitAux c rest (d :: acc)

/-- Model of Python's `s.split(sep)` for a single-character separator:
splits at every occurrence, preserving empty parts, producing n+1 parts
for n occurrences (cli.py lines 139 and 147). -/
def pySplit (s : String) (c : Char) : List String :=
  pySplitAux c s.toList []

/-- Model of Python's `s.startswith(t)` (cli.py line 149). -/
def pyStartsWith (s t : String) : Bool := t.toList.isPrefixOf s.toList

/-- Model of Python's `s.endswith(t)` for a single-character `t`:
the last character of `s` equals it (cli.py line 146 uses
`np.endswith("*")`). -/
def pyEndsWithChar (s : String) (c : Char) : Bool := s.toList.getLast? == some c

/-- Auxiliary for `pyReplace`: scans left to right; whenever the pattern
is a prefix of the remaining input, emits the replacement and skips the
pattern, otherwise keeps one character.  The fuel argument (instantiated
with the input length, which bounds the number of steps) makes the
recursion structural. -/
def pyReplaceAux (pat repl : List Char) : Nat → List Char → List Char
  | _, [] => []
  | 0, s => s
  | fuel + 1, d :: rest =>
    if pat.isPrefixOf (d :: rest) then repl ++ pyReplaceAux pat repl fuel ((d :: rest).drop pat.length)
    else d :: pyReplaceAux pat repl fuel rest

/-- Model of Python's `s.replace(pat, repl)` for a non-empty pattern:
replaces every non-overlapping occurrence, scanning left to right
(cli.py line 130 uses `p.replace("profile ", "")`). -/
def pyReplace (s pat repl : String) : String :=
  String.mk (pyReplaceAux pat.toList repl.toList s.toList.length s.toList)

/-- Modelled from the spec: the spec's description of universe
construction says every non-default section identifier "has its marker
prefix stripped before comparison".  This definition follows those words
(remove one leading `"profile "` marker if present, else keep the
identifier unchanged) and exists only to be compared with the
source-derived `n_profiles` below. -/
def stripMarkerSpec (s : String) : String :=
  if ("profile ".toList).isPrefixOf s.toList then String.mk (s.toList.drop 8) else s

/-- The named-profile universe of cli.py line 130:
`list(map(lambda p: p.replace("profile ", ""), filter(lambda s: s != "default", sections)))`. -/
def n_profiles (sections : List String) : List String :=
  (sections.filter (fun s => s != "default")).map (fun p => pyReplace p "profile " "")

/-- State built by the selection loop of cli.py lines 136-154:
the collected `profiles` list, the `co.profiles_new_name` rename mapping
(most recent binding first), and the warnings logged so far. -/
structure SelState where
  profiles : List String
  renames : List (String × String)
  warnings : List String
  deriving Repr, DecidableEq

/-- The warning of cli.py lines 141 and 152 (formatted without the
config-file path, which is external state). -/
def unknownWarn (p : String) : String :=
  "Named profile " ++ p ++ " is not specified in the config file. Skipping..."

/-- The Python `ValueError` raised by `old, new = np.split(":")` when the
split does not produce exactly two parts (cli.py line 139). -/
def unpackErr : String := "ValueError: too many values to unpack"

/-- Python dict lookup for `co.profiles_new_name` modelled on an
association list where the most recent binding for a key comes first. -/
def dictGet (d : List (String × String)) (k : String) : Option String :=
  (d.find? (fun e => e.1 == k)).map (fun e => e.2)

/-- One iteration of the selection loop, cli.py lines 137-154: rename
branch when the token contains a separator (with Python's two-variable
unpacking of the split result, raising on three or more parts), wildcard
branch when it ends with a star, exact-match branch otherwise. -/
def stepToken (uni : List String) (st : SelState) (np : String) : Except String SelState :=
  if pyContains np ':' then
    match pySplit np ':' with
    | [old, new] =>
      if old ∈ uni then
        Except.ok { st with profiles := st.profiles ++ [old], renames := (old, new) :: st.renames }
      else
        Except.ok { st with warnings := st.warnings ++ [unknownWarn old] }
    | _ => Except.error unpackErr
  else if pyEndsWithChar np '*' then
    Except.ok { st with
      profiles := st.profiles ++ uni.filter (fun p => pyStartsWith p ((pySplit np '*').headD "")) }
  else if np ∈ uni then
    Except.ok { st with profiles := st.profiles ++ [np] }
  else
    Except.ok { st with warnings := st.warnings ++ [unknownWarn np] }

/-- The selection loop of cli.py lines 137-155: processes the tokens in
order; an uncaught Python exception from one iteration aborts the loop. -/
def selLoop (uni : List String) : SelState → List String → Except String SelState
  | st, [] => Except.ok st
  | st, np :: rest =>
    match stepToken uni st np with
    | Except.error e => Except.error e
    | Except.ok st' => selLoop uni st' rest

/-- Resolution of the profile selection, cli.py lines 130-156: with a
falsy `args.profiles` (absent option or empty list) `core.profiles` stays
the whole universe; otherwise the selection loop runs from an empty state
and the collected profiles are deduplicated (`list(set(profiles))`).
The initial empty rename map (`co.profiles_new_name`) is modelled from
the spec: `cmd.Command`'s initializer is outside the given sources, and
the spec's Selector contract starts from an empty rename map.
Returns (resolved profiles, rename map, warnings). -/
def resolveSelection (tokensOpt : Option (List String)) (uni : List String) :
    Except String (List String × List (String × String) × List String) :=
  match tokensOpt with
  | none => Except.ok (uni, [], [])
  | some [] => Except.ok (uni, [], [])
  | some (t :: ts) =>
    match selLoop uni ⟨[], [], []⟩ (t :: ts) with
    | Except.error e => Except.error e
    | Except.ok st => Except.ok (st.profiles.dedup, st.renames, st.warnings)

/-- The sync loop of cli.py lines 159-167.  `update_profile` is the
external Credential Updater; raising is modelled by `Except.error`.
Returns the calls made (profile name and optional rename target, in
order), the export keys emitted (when `ev`, i.e. `co.export_vars`), and
the exception, if any, that ended the loop early. -/
def syncLoop {κ : Type} (update_profile : String → Option String → Except String κ)
    (ev : Bool) (renames : List (String × String)) :
    List String → List (String × Option String) × List String × Option String
  | [] => ([], [], none)
  | p :: rest =>
    match update_profile p (dictGet renames p) with
    | Except.error e => ([(p, dictGet renames p)], [], some e)
    | Except.ok _ =>
      let r := syncLoop update_profile ev renames rest
      ((p, dictGet renames p) :: r.1, (if ev then [p] else []) ++ r.2.1, r.2.2)

/-- Python truthiness of `co.args.profiles` (cli.py line 135): an absent
option and an empty list are both falsy. -/
def truthy : Option (List String) → Bool
  | none => false
  | some l => !l.isEmpty

/-- The parsed-argument fields read by cli.py lines 116-159.
`export_vars` is `co.export_vars` (export output requested),
`defaultFlag` is `args.default`, `hasProfileAttr` is
`hasattr(co.args, 'profile')` (true exactly when the `login` subcommand
was parsed). -/
structure Args where
  export_vars : Bool
  defaultFlag : Bool
  default_only : Bool
  profiles : Option (List String)
  hasProfileAttr : Bool
  deriving Repr, DecidableEq

/-- Observable outcome of one run of `main` from line 116 on: updater
calls made (name, rename target), export keys emitted, the explicit exit
code if `exit(0)` was reached, the uncaught exception if one aborted the
run, and whether control reached the general named-profile loop
(line 159). -/
structure Run where
  calls : List (String × Option String)
  exports : List String
  exitCode : Option Nat
  err : Option String
  ranLoop : Bool
  deriving Repr, DecidableEq

/-- cli.py lines 130-167: universe construction, selection resolution and
the general sync loop, entered with the calls/exports accumulated by the
earlier special cases. -/
def mainRest {κ : Type} (update_profile : String → Option String → Except String κ)
    (args : Args) (sections : List String)
    (calls0 : List (String × Option String)) (exports0 : List String) : Run :=
  match resolveSelection args.profiles (n_profiles sections) with
  | Except.error e => ⟨calls0, exports0, none, some e, false⟩
  | Except.ok (profs, renames, _warns) =>
    let r := syncLoop update_profile args.export_vars renames profs
    match r.2.2 with
    | none => ⟨calls0 ++ r.1, exports0 ++ r.2.1, some 0, none, true⟩
    | some e => ⟨calls0 ++ r.1, exports0 ++ r.2.1, none, some e, true⟩

/-- cli.py lines 116-167 (after subcommand dispatch): the export-only
shortcut (line 116), the default / default-only flags (lines 122-127),
then the general named-profile sync. -/
def mainModel {κ : Type} (update_profile : String → Option String → Except String κ)
    (args : Args) (sections : List String) : Run :=
  if args.export_vars && !args.defaultFlag && !truthy args.profiles && !args.hasProfileAttr then
    match update_profile "default" none with
    | Except.error e => ⟨[("default", none)], [], none, some e, false⟩
    | Except.ok _ => ⟨[("default", none)], ["default"], some 0, none, false⟩
  else if args.defaultFlag || args.default_only then
    match update_profile "default" none with
    | Except.error e => ⟨[("default", none)], [], none, some e, false⟩
    | Except.ok _ =>
      let ex0 : List String := if args.export_vars then ["default"] else []
      if args.default_only then ⟨[("default", none)], ex0, some 0, none, false⟩
      else mainRest update_profile args sections [("default", none)] ex0
  else mainRest update_profile args sections [] []

/-- C3: if the sequence of selection tokens is empty (the `-p` option is
absent, or present with zero arguments — both falsy in Python), the
resolved selection is exactly the named-profile universe and the rename
map is empty. -/
theorem empty_tokens_select_all (uni : List String) :
    resolveSelection none uni = Except.ok (uni, [], []) ∧
    resolveSelection (some []) uni = Except.ok (uni, [], []) :=
  ⟨rfl, rfl⟩

/-- C2 counterexample: the token `"x:y:z"` contains the separator and is
malformed (two separators).  The claim says it falls through to
exact-match handling, is skipped with a warning, and the remaining token
`"p"` is still processed.  In the code, `old, new = np.split(":")`
raises a `ValueError`, the run aborts, and no profile is ever passed to
the updater — here with universe `["p"]` coming from section
`"profile p"`. -/
theorem malformed_rename_aborts_run_ce :
    mainModel (fun _ _ => Except.ok (0 : Nat))
      ⟨false, false, false, some ["x:y:z", "p"], false⟩ ["profile p"] =
      ⟨[], [], none, some unpackErr, false⟩ := by
  decide

/-- C5 counterexample: for the wildcard token `"a*b*"` (so `pfx = "a*b"`)
and universe `["ax"]`, the claim says the contribution is exactly the
members starting with `"a*b"`, which is empty; the code takes the part
before the FIRST star (`"a"`) as the filter, so it contributes
`["ax"]`. -/
theorem wildcard_first_star_ce :
    stepToken ["ax"] ⟨[], [], []⟩ "a*b*" = Except.ok ⟨["ax"], [], []⟩ ∧
    pyStartsWith "ax" "a*b" = false :=
  ⟨rfl, rfl⟩

/-- C8 counterexample: for the config section `"profile profile default"`
the code removes every occurrence of `"profile "` and puts `"default"`
into the named-profile universe — contradicting both "never contains
default" and the single-prefix-strip description, which would yield
`"profile default"`. -/
theorem universe_contains_default_ce :
    "default" ∈ n_profiles ["profile profile default"] ∧
    stripMarkerSpec "profile profile default" = "profile default" := by
  constructor <;> decide

/-- C1 counterexample: the resolved selection `["a", "b"]` with an
updater that raises on `"a"`: the claim says `"b"` is still passed to
the updater, but the loop has no exception handling — it stops at `"a"`
and `"b"` is never called. -/
theorem update_failure_stops_loop_ce :
    syncLoop (fun p _ => if p == "a" then Except.error "boom" else Except.ok (0 : Nat))
        true [] ["a", "b"] = ([("a", none)], [], some "boom") ∧
    "b" ∉ (syncLoop (fun p _ => if p == "a" then Except.error "boom" else Except.ok (0 : Nat))
        true [] ["a", "b"]).1.map Prod.fst := by
  constructor <;> decide

/-- C4: for a rename token splitting into exactly the two parts `a` and
`b`: if `a` is in the universe, `a` is appended to the collected profiles
and the rename map gains the binding of `a` to `b` (so it maps `a` to
`b`); if `a` is not in the universe, a warning naming `a` is emitted and
profiles and rename map are unchanged. -/
theorem rename_token_step (np a b : String) (uni : List String) (st : SelState)
    (hc : pyContains np ':' = true) (hs : pySplit np ':' = [a, b]) :
    (a ∈ uni →
      stepToken uni st np =
        Except.ok ⟨st.profiles ++ [a], (a, b) :: st.renames, st.warnings⟩ ∧
      dictGet ((a, b) :: st.renames) a = some b) ∧
    (a ∉ uni →
      stepToken uni st np =
        Except.ok ⟨st.profiles, st.renames, st.warnings ++ [unknownWarn a]⟩) := by
  constructor
  · intro ha
    constructor
    · simp [stepToken, hc, hs, ha]
    · simp [dictGet]
  · intro ha
    simp [stepToken, hc, hs, ha]

/-- C4 witness: the rename token `"dev:developer"` against universe
`["dev"]`. -/
theorem rename_token_step_witness :
    pyContains "dev:developer" ':' = true ∧
    pySplit "dev:developer" ':' = ["dev", "developer"] ∧
    (stepToken ["dev"] ⟨[], [], []⟩ "dev:developer" =
        Except.ok ⟨["dev"], [("dev", "developer")], []⟩ ∧
      dictGet [("dev", "developer")] "dev" = some "developer") :=
  ⟨by decide, by decide,
    (rename_token_step "dev:developer" "dev" "developer" ["dev"] ⟨[], [], []⟩
      (by decide) (by decide)).1 (by decide)⟩

/-- C2 amended: a token containing the separator is always handled by the
rename branch and never falls through to exact-match handling.  With
three or more split parts (more than one separator) the two-variable
unpacking raises an error that aborts the run.  With exactly one
separator and an empty old part, unknown-profile validation fails
(when the empty string is not a known profile) and the token is skipped
with a warning naming the empty string.  With exactly one separator, an
empty new part and a known old part, the token is accepted as a rename
of `old` to the empty string. -/
theorem separator_token_handling (np old new : String) (uni : List String) (st : SelState)
    (hc : pyContains np ':' = true) :
    (3 ≤ (pySplit np ':').length → stepToken uni st np = Except.error unpackErr) ∧
    (pySplit np ':' = ["", new] → "" ∉ uni →
      stepToken uni st np =
        Except.ok ⟨st.profiles, st.renames, st.warnings ++ [unknownWarn ""]⟩) ∧
    (pySplit np ':' = [old, ""] → old ∈ uni →
      stepToken uni st np =
        Except.ok ⟨st.profiles ++ [old], (old, "") :: st.renames, st.warnings⟩) := by
  refine ⟨?_, ?_, ?_⟩
  · intro h3
    rcases hl : pySplit np ':' with _ | ⟨x, _ | ⟨y, _ | ⟨z, t⟩⟩⟩
    · rw [hl] at h3; simp at h3
    · rw [hl] at h3; simp at h3
    · rw [hl] at h3; simp at h3
    · simp [stepToken, hc, hl]
  · intro hs he
    simp [stepToken, hc, hs, he]
  · intro hs ho
    simp [stepToken, hc, hs, ho]

/-- C2 witness: the malformed token `"x:y:z"` aborts with the unpacking
error. -/
theorem separator_token_handling_witness :
    pyContains "x:y:z" ':' = true ∧
    stepToken ["p"] ⟨[], [], []⟩ "x:y:z" = Except.error unpackErr :=
  ⟨by decide,
    (separator_token_handling "x:y:z" "x" "y" ["p"] ⟨[], [], []⟩ (by decide)).1 (by decide)⟩

/-- C5 amended: for every wildcard token (a token without the separator
that ends with the star character), the token's contribution to the
collected profiles is exactly the universe members whose names start with
the portion of the token before its FIRST star (which equals everything
before the trailing star only when that portion contains no star
itself); zero matches contribute nothing, and no warning or error is
produced (warnings and rename map are unchanged and the step
succeeds). -/
theorem wildcard_token_step (np : String) (uni : List String) (st : SelState)
    (hc : pyContains np ':' = false) (hw : pyEndsWithChar np '*' = true) :
    ∃ st', stepToken uni st np = Except.ok st' ∧
      st'.profiles =
        st.profiles ++ uni.filter (fun p => pyStartsWith p ((pySplit np '*').headD "")) ∧
      (∀ p, p ∈ st'.profiles ↔
        p ∈ st.profiles ∨
          (p ∈ uni ∧ pyStartsWith p ((pySplit np '*').headD "") = true)) ∧
      st'.renames = st.renames ∧ st'.warnings = st.warnings := by
  refine ⟨{ st with profiles :=
      st.profiles ++ uni.filter (fun p => pyStartsWith p ((pySplit np '*').headD "")) },
    by simp [stepToken, hc, hw], rfl, ?_, rfl, rfl⟩
  intro p
  simp [List.mem_filter]

/-- C5 witness: the wildcard token `"de*"` against universe
`["dev", "prod"]` contributes exactly `["dev"]`. -/
theorem wildcard_token_step_witness :
    pyContains "de*" ':' = false ∧
    pyEndsWithChar "de*" '*' = true ∧
    (∃ st', stepToken ["dev", "prod"] ⟨[], [], []⟩ "de*" = Except.ok st' ∧
      st'.profiles =
        [] ++ ["dev", "prod"].filter (fun p => pyStartsWith p ((pySplit "de*" '*').headD "")) ∧
      (∀ p, p ∈ st'.profiles ↔
        p ∈ ([] : List String) ∨
          (p ∈ ["dev", "prod"] ∧ pyStartsWith p ((pySplit "de*" '*').headD "") = true)) ∧
      st'.renames = [] ∧ st'.warnings = []) :=
  ⟨by decide, by decide,
    wildcard_token_step "de*" ["dev", "prod"] ⟨[], [], []⟩ (by decide) (by decide)⟩

/-- Helper: when the updater never raises, the sync loop visits the whole
selection, calling the updater with the rename-map lookup for each name
and exporting each original name exactly when export output is
requested. -/
theorem syncLoop_ok {κ : Type} (update_profile : String → Option String → Except String κ)
    (ev : Bool) (renames : List (String × String)) (profs : List String)
    (h : ∀ p r, ∃ c, update_profile p r = Except.ok c) :
    syncLoop update_profile ev renames profs =
      (profs.map (fun p => (p, dictGet renames p)), (if ev then profs else []), none) := by
  induction profs with
  | nil => simp [syncLoop]
  | cons p rest ih =>
    obtain ⟨c, hc⟩ := h p (dictGet renames p)
    simp only [syncLoop, hc, ih, List.map_cons]
    cases ev <;> simp

/-- C9: when no update raises, the general loop calls the Credential
Updater exactly once for every profile of the (duplicate-free) resolved
selection — with the rename-map target when the profile has one and no
target otherwise — and, when export output is requested, emits an export
keyed by each original (pre-rename) profile name. -/
theorem sync_loop_calls_each_once {κ : Type}
    (update_profile : String → Option String → Except String κ)
    (ev : Bool) (renames : List (String × String)) (profs : List String)
    (h : ∀ p r, ∃ c, update_profile p r = Except.ok c) (hnd : profs.Nodup) :
    (syncLoop update_profile ev renames profs).1 =
      profs.map (fun p => (p, dictGet renames p)) ∧
    (∀ p ∈ profs,
      List.count p ((syncLoop update_profile ev renames profs).1.map Prod.fst) = 1) ∧
    (syncLoop update_profile ev renames profs).2.1 = (if ev then profs else []) ∧
    (syncLoop update_profile ev renames profs).2.2 = none := by
  have hok := syncLoop_ok update_profile ev renames profs h
  refine ⟨by rw [hok], ?_, by rw [hok], by rw [hok]⟩
  intro p hp
  have hfst : ((syncLoop update_profile ev renames profs).1.map Prod.fst) = profs := by
    rw [hok]
    simp only [List.map_map]
    have hid : (Prod.fst ∘ fun p : String => (p, dictGet renames p)) = id := rfl
    rw [hid, List.map_id]
  rw [hfst]
  exact List.count_eq_one_of_mem hnd hp

/-- C9 witness: universe `["dev", "prod"]` with `"dev"` renamed to
`"developer"`, a never-failing updater and export output requested. -/
theorem sync_loop_calls_each_once_witness :
    (∀ (p : String) (r : Option String),
        ∃ c, (fun (_ : String) (_ : Option String) => (Except.ok 0 : Except String Nat)) p r =
          Except.ok c) ∧
    (["dev", "prod"] : List String).Nodup ∧
    ((syncLoop (fun _ _ => (Except.ok 0 : Except String Nat)) true [("dev", "developer")]
        ["dev", "prod"]).1 =
      ["dev", "prod"].map (fun p => (p, dictGet [("dev", "developer")] p)) ∧
    (∀ p ∈ (["dev", "prod"] : List String),
      List.count p ((syncLoop (fun _ _ => (Except.ok 0 : Except String Nat)) true
        [("dev", "developer")] ["dev", "prod"]).1.map Prod.fst) = 1) ∧
    (syncLoop (fun _ _ => (Except.ok 0 : Except String Nat)) true [("dev", "developer")]
        ["dev", "prod"]).2.1 = (if true then ["dev", "prod"] else []) ∧
    (syncLoop (fun _ _ => (Except.ok 0 : Except String Nat)) true [("dev", "developer")]
        ["dev", "prod"]).2.2 = none) :=
  ⟨fun _ _ => ⟨0, rfl⟩, by decide,
    sync_loop_calls_each_once (fun _ _ => (Except.ok 0 : Except String Nat)) true
      [("dev", "developer")] ["dev", "prod"] (fun _ _ => ⟨0, rfl⟩) (by decide)⟩

/-- C1 amended: a failure raised by the Credential Updater for one
profile DOES prevent the remaining profiles from being processed: the
loop calls the updater for each profile before the first failing one
(exporting those when requested), then for the failing profile, and the
exception ends the loop — no subsequent profile is passed to the
updater and no export is emitted for the failing profile. -/
theorem sync_loop_failure_propagates {κ : Type}
    (update_profile : String → Option String → Except String κ)
    (ev : Bool) (renames : List (String × String))
    (pre : List String) (p : String) (rest : List String) (e : String)
    (hpre : ∀ q ∈ pre, ∃ c, update_profile q (dictGet renames q) = Except.ok c)
    (hp : update_profile p (dictGet renames p) = Except.error e) :
    syncLoop update_profile ev renames (pre ++ p :: rest) =
      (pre.map (fun q => (q, dictGet renames q)) ++ [(p, dictGet renames p)],
        (if ev then pre else []), some e) := by
  induction pre with
  | nil => simp [syncLoop, hp]
  | cons q pre' ih =>
    obtain ⟨c, hc⟩ := hpre q (by simp)
    have ih' := ih (fun q' hq' => hpre q' (by simp [hq']))
    simp only [List.cons_append, syncLoop, hc, List.map_cons]
    cases ev <;> simp [ih']

/-- C1 witness: profiles `["w", "x", "y"]` with an updater failing on
`"x"`: `"w"` and `"x"` are called, `"y"` is not. -/
theorem sync_loop_failure_propagates_witness :
    (∀ q ∈ (["w"] : List String),
      ∃ c, (fun p (_ : Option String) =>
          if p == "x" then Except.error "boom" else (Except.ok 0 : Except String Nat)) q
        (dictGet [] q) = Except.ok c) ∧
    ((fun p (_ : Option String) =>
        if p == "x" then Except.error "boom" else (Except.ok 0 : Except String Nat)) "x"
      (dictGet [] "x") = Except.error "boom") ∧
    syncLoop (fun p _ => if p == "x" then Except.error "boom" else (Except.ok 0 : Except String Nat))
        true [] (["w"] ++ "x" :: ["y"]) =
      (["w"].map (fun q => (q, dictGet [] q)) ++ [("x", dictGet [] "x")],
        (if true then ["w"] else []), some "boom") :=
  ⟨fun q hq => by simp only [List.mem_singleton] at hq; subst hq; exact ⟨0, rfl⟩, rfl,
    sync_loop_failure_propagates
      (fun p _ => if p == "x" then Except.error "boom" else (Except.ok 0 : Except String Nat))
      true [] ["w"] "x" ["y"] "boom"
      (fun q hq => by simp only [List.mem_singleton] at hq; subst hq; exact ⟨0, rfl⟩) rfl⟩

/-- C6: whenever the resolution of the selection succeeds, the resolved
profile list is duplicate-free — for a duplicate-free universe (the
spec's universe is a set) and every token sequence, including the
falsy ones that select the whole universe and the nonempty ones that are
explicitly deduplicated. -/
theorem resolved_profiles_nodup (tokensOpt : Option (List String)) (uni : List String)
    (h : uni.Nodup) (profs : List String) (renames : List (String × String))
    (warns : List String)
    (hr : resolveSelection tokensOpt uni = Except.ok (profs, renames, warns)) :
    profs.Nodup := by
  match tokensOpt with
  | none =>
    simp [resolveSelection] at hr
    rw [← hr.1]
    exact h
  | some [] =>
    simp [resolveSelection] at hr
    rw [← hr.1]
    exact h
  | some (t :: ts) =>
    rcases hsel : selLoop uni ⟨[], [], []⟩ (t :: ts) with e | st <;>
      simp [resolveSelection, hsel] at hr
    rw [← hr.1]
    exact List.nodup_dedup st.profiles

/-- C6 witness: universe `["dev", "prod"]`, absent token option. -/
theorem resolved_profiles_nodup_witness :
    (["dev", "prod"] : List String).Nodup ∧
    resolveSelection none ["dev", "prod"] = Except.ok (["dev", "prod"], [], []) ∧
    (["dev", "prod"] : List String).Nodup :=
  ⟨by decide, rfl,
    resolved_profiles_nodup none ["dev", "prod"] (by decide) ["dev", "prod"] [] [] rfl⟩

/-- C7: when export output is requested and the invocation supplies no
default flag, no profile tokens (the option absent or empty, both falsy)
and no login-profile argument (the `login` subcommand absent, so
`args` has no `profile` attribute), and the updater returns normally,
the program updates `"default"` exactly once, emits exactly one export
keyed `"default"`, exits with code 0 and never reaches the general
named-profile loop — regardless of the `--default-only` flag, the
config sections and the behaviour of the updater on other profiles. -/
theorem export_only_shortcut {κ : Type}
    (update_profile : String → Option String → Except String κ)
    (args : Args) (sections : List String) (c : κ)
    (he : args.export_vars = true) (hd : args.defaultFlag = false)
    (hp : truthy args.profiles = false) (hl : args.hasProfileAttr = false)
    (hu : update_profile "default" none = Except.ok c) :
    mainModel update_profile args sections =
      ⟨[("default", none)], ["default"], some 0, none, false⟩ := by
  simp [mainModel, he, hd, hp, hl, hu]

/-- C7 witness: `-e` with no other selector, `--default-only` unset. -/
theorem export_only_shortcut_witness :
    (Args.mk true false false none false).export_vars = true ∧
    truthy (Args.mk true false false none false).profiles = false ∧
    mainModel (fun _ _ => Except.ok (0 : Nat)) (Args.mk true false false none false)
        ["profile dev"] =
      ⟨[("default", none)], ["default"], some 0, none, false⟩ :=
  ⟨rfl, rfl,
    export_only_shortcut (fun _ _ => Except.ok (0 : Nat))
      (Args.mk true false false none false) ["profile dev"] 0 rfl rfl rfl rfl rfl⟩

/-- C8 amended: the named-profile universe is obtained by excluding the
sections literally equal to `"default"` as-is and deleting every
occurrence of the marker `"profile "` (not merely a leading prefix) from
every remaining section identifier; consequently the universe can
contain `"default"` (e.g. from a section `"profile default"`), as the
counterexample shows.  Membership characterization: `p` is in the
universe exactly when some non-default section reduces to it. -/
theorem n_profiles_mem_iff (sections : List String) (p : String) :
    p ∈ n_profiles sections ↔
      ∃ s, s ∈ sections ∧ s ≠ "default" ∧ p = pyReplace s "profile " "" := by
  unfold n_profiles
  rw [List.mem_map]
  constructor
  · rintro ⟨s, hs, hps⟩
    rw [List.mem_filter] at hs
    exact ⟨s, hs.1, by simpa using hs.2, hps.symm⟩
  · rintro ⟨s, hs, hd, hp⟩
    exact ⟨s, List.mem_filter.2 ⟨hs, by simpa using hd⟩, hp.symm⟩

/-- C10: two rename tokens naming the same source profile `a` (first
mapping it to `b`, then to `c`), with `a` in the universe: the resolved
selection contains `a` exactly once and the rename map lookup yields the
target of the token processed last, `c` — the later binding shadows the
earlier one. -/
theorem rename_last_wins (uni : List String) (t1 t2 a b c : String)
    (h1 : pyContains t1 ':' = true) (h2 : pySplit t1 ':' = [a, b])
    (h3 : pyContains t2 ':' = true) (h4 : pySplit t2 ':' = [a, c])
    (ha : a ∈ uni) :
    ∃ profs renames warns,
      resolveSelection (some [t1, t2]) uni = Except.ok (profs, renames, warns) ∧
      dictGet renames a = some c ∧ profs.count a = 1 := by
  have e1 : stepToken uni ⟨[], [], []⟩ t1 = Except.ok ⟨[a], [(a, b)], []⟩ := by
    simp [stepToken, h1, h2, ha]
  have e2 : stepToken uni ⟨[a], [(a, b)], []⟩ t2 =
      Except.ok ⟨[a, a], [(a, c), (a, b)], []⟩ := by
    simp [stepToken, h3, h4, ha]
  refine ⟨[a], [(a, c), (a, b)], [], ?_, ?_, ?_⟩
  · simp [resolveSelection, selLoop, e1, e2, List.dedup_cons_of_mem]
  · simp [dictGet]
  · simp

/-- C10 witness: tokens `"a:b"` then `"a:c"` with universe `["a"]`. -/
theorem rename_last_wins_witness :
    pySplit "a:b" ':' = ["a", "b"] ∧
    pySplit "a:c" ':' = ["a", "c"] ∧
    (∃ profs renames warns,
      resolveSelection (some ["a:b", "a:c"]) ["a"] = Except.ok (profs, renames, warns) ∧
      dictGet renames "a" = some "c" ∧ profs.count "a" = 1) :=
  ⟨by decide, by decide,
    rename_last_wins ["a"] "a:b" "a:c" "a" "b" "c"
      (by decide) (by decide) (by decide) (by decide) (by decide)⟩

end Yawsso
